import Mathlib

/-!
Verification of the real-time audio pipeline of the `bebokurd/ali-` browser
client (source: `src/index.tsx`).  The development shallowly embeds the
pipeline's pure core: the base64 transport codec (`encode`/`decode`), the
voice-activity detector with hysteresis (`onaudioprocess` VAD block), the
playback scheduler (`playAudioChunk` / `interruptAndClearAudioQueue`), the
transcription turn accumulators (`onmessage`), and the session teardown
(`stopConversation`, `onclose`, `onerror`).  Browser handles (media tracks,
audio-graph nodes, audio contexts) are modelled as presence flags plus an
ordered log of the observable teardown actions performed on them; times and
durations are rationals; asynchronous decode results are `Option` values.
-/

namespace ZanstiSardam

/-! ## Base64 transport codec (src/index.tsx lines 15-32)

`encode` turns a byte array into a binary string with `String.fromCharCode`
and applies `btoa`; `decode` applies `atob` and reads code units back with
`charCodeAt`.  Since `fromCharCode`/`charCodeAt` are mutually inverse on
values below 256, the pair is the standard base64 codec on byte sequences.
Bytes are `Nat` values below 256, strings are lists of characters. -/

/-- The base64 alphabet: index 0-25 ↦ A-Z, 26-51 ↦ a-z, 52-61 ↦ 0-9,
62 ↦ plus, 63 ↦ slash. -/
def b64Char (x : Nat) : Char :=
  if x < 26 then Char.ofNat (65 + x)
  else if x < 52 then Char.ofNat (97 + (x - 26))
  else if x < 62 then Char.ofNat (48 + (x - 52))
  else if x = 62 then '+'
  else '/'

/-- Inverse of the base64 alphabet map. -/
def b64Index (c : Char) : Nat :=
  if 65 ≤ c.toNat ∧ c.toNat ≤ 90 then c.toNat - 65
  else if 97 ≤ c.toNat ∧ c.toNat ≤ 122 then 26 + (c.toNat - 97)
  else if 48 ≤ c.toNat ∧ c.toNat ≤ 57 then 52 + (c.toNat - 48)
  else if c = '+' then 62
  else 63

/-- `btoa` on a binary string whose code units are the given bytes:
groups of three bytes become four sextet characters, with `=` padding for a
final group of one or two bytes. -/
def btoaBytes : List Nat → List Char
  | [] => []
  | [b1] =>
      [b64Char (b1 / 4), b64Char (b1 % 4 * 16), '=', '=']
  | [b1, b2] =>
      [b64Char (b1 / 4), b64Char (b1 % 4 * 16 + b2 / 16),
       b64Char (b2 % 16 * 4), '=']
  | b1 :: b2 :: b3 :: rest =>
      b64Char (b1 / 4) :: b64Char (b1 % 4 * 16 + b2 / 16) ::
      b64Char (b2 % 16 * 4 + b3 / 64) :: b64Char (b3 % 64) :: btoaBytes rest

/-- `atob` on a base64 string, producing the code units of the decoded
binary string: each group of four characters yields three bytes, or fewer
when the group carries `=` padding. -/
def atobChars : List Char → List Nat
  | c1 :: c2 :: c3 :: c4 :: rest =>
      if c3 = '=' then
        [b64Index c1 * 4 + b64Index c2 / 16]
      else if c4 = '=' then
        [b64Index c1 * 4 + b64Index c2 / 16,
         b64Index c2 % 16 * 16 + b64Index c3 / 4]
      else
        (b64Index c1 * 4 + b64Index c2 / 16) ::
        (b64Index c2 % 16 * 16 + b64Index c3 / 4) ::
        (b64Index c3 % 4 * 64 + b64Index c4) :: atobChars rest
  | _ => []

/-- `encode` (src/index.tsx line 15): bytes to binary string via
`String.fromCharCode`, then `btoa`.  On byte values the `fromCharCode` step
is the identity on code units, so the composite is `btoaBytes`. -/
def encode (bytes : List Nat) : List Char :=
  btoaBytes bytes

/-- `decode` (src/index.tsx line 24): `atob`, then `charCodeAt` on every
position of the resulting binary string. -/
def decode (base64 : List Char) : List Nat :=
  atobChars base64

/-! ## Voice-activity detector (src/index.tsx lines 67-74 and 743-757)

The classifier consumes one frame decision at a time: line 743 computes
`isPotentiallySpeaking = rms > thresholds.rms && zeroCrossings >
thresholds.zcr`; the hysteresis state machine of lines 745-757 is embedded
over that boolean frame classification. -/

inductive VadPhase
  | SILENCE
  | SPEAKING
deriving DecidableEq

inductive VadSensitivity
  | low
  | medium
  | high
deriving DecidableEq

/-- One entry of `VAD_THRESHOLDS`. -/
structure VadConfig where
  rms : ℚ
  zcr : Nat
  speechBuffers : Nat
  silenceBuffers : Nat
deriving DecidableEq

/-- `VAD_THRESHOLDS` (src/index.tsx lines 67-74). -/
def VAD_THRESHOLDS : VadSensitivity → VadConfig
  | .low => ⟨1 / 100, 100, 3, 8⟩
  | .medium => ⟨5 / 1000, 80, 2, 10⟩
  | .high => ⟨3 / 1000, 60, 2, 15⟩

/-- The VAD refs: `vadStateRef`, `speechConsecutiveBuffersRef`,
`silenceConsecutiveBuffersRef` (src/index.tsx lines 232-234). -/
structure VadState where
  phase : VadPhase
  speech : Nat
  silence : Nat
deriving DecidableEq

/-- Reset value `{SILENCE, 0, 0}` (src/index.tsx lines 617-619). -/
def initialVadState : VadState := ⟨.SILENCE, 0, 0⟩

/-- One step of the hysteresis machine (src/index.tsx lines 745-757): on a
potentially-speech frame, increment the speech streak, zero the silence
streak, and enter SPEAKING once the streak reaches `speechBuffers`; on any
other frame, symmetrically with `silenceBuffers` and SILENCE. -/
def vadStep (thresholds : VadConfig) (isPotentiallySpeaking : Bool)
    (s : VadState) : VadState :=
  if isPotentiallySpeaking then
    let sp := s.speech + 1
    { phase := if thresholds.speechBuffers ≤ sp then .SPEAKING else s.phase
      speech := sp
      silence := 0 }
  else
    let si := s.silence + 1
    { phase := if thresholds.silenceBuffers ≤ si then .SILENCE else s.phase
      speech := 0
      silence := si }

/-- Feeding a sequence of frame classifications through the machine. -/
def vadRun (thresholds : VadConfig) (frames : List Bool) (s : VadState) :
    VadState :=
  frames.foldl (fun st f => vadStep thresholds f st) s

/-! ## Playback scheduler (src/index.tsx lines 241-242, 271-320)

State: the playback cursor `nextStartTimeRef` and the live set
`audioSourcesRef` of in-flight source nodes (represented by numeric ids in
insertion order, with a fresh-id counter).  `startLog` records the time at
which each successfully scheduled unit was started (`source.start(...)`),
and `stopLog` records each `source.stop()` issued by an interruption, so
that the observable effects of the scheduler are part of the state.
`playAudioChunk` takes the decoded duration of the chunk as an `Option`:
`some d` for a successful decode of duration `d`, `none` when
`decodeAudioData` fails; `currentTime` is the output audio clock at the
moment of the call. -/

structure SchedState where
  nextStartTime : ℚ
  sources : List Nat
  startLog : List ℚ
  stopLog : List Nat
  nextId : Nat
deriving DecidableEq

/-- `interruptAndClearAudioQueue` (src/index.tsx lines 271-280): stop every
source in the live set, clear the set, reset the cursor to 0. -/
def interruptAndClearAudioQueue (s : SchedState) : SchedState :=
  { s with
    stopLog := s.stopLog ++ s.sources
    sources := []
    nextStartTime := 0 }

/-- `playAudioChunk` (src/index.tsx lines 282-320): clamp the cursor to the
current output-clock time, await the decode, then — on success — start a
fresh source at the cursor, advance the cursor by the decoded duration and
add the source to the live set.  A failed decode rejects after the clamp,
before any unit is created or the cursor advanced. -/
def playAudioChunk (decoded : Option ℚ) (currentTime : ℚ) (s : SchedState) :
    SchedState :=
  let nst := max s.nextStartTime currentTime
  match decoded with
  | none => { s with nextStartTime := nst }
  | some d =>
      { nextStartTime := nst + d
        sources := s.sources ++ [s.nextId]
        startLog := s.startLog ++ [nst]
        stopLog := s.stopLog
        nextId := s.nextId + 1 }

/-- The `ended` listener registered in `playAudioChunk` (src/index.tsx
lines 308-310): natural completion removes the source from the live set. -/
def sourceEnded (id : Nat) (s : SchedState) : SchedState :=
  { s with sources := s.sources.erase id }

/-- Sequentially awaited enqueues of successfully decoded chunks: each
element is `(duration, output-clock time at the call)`. -/
def enqueueAll (chunks : List (ℚ × ℚ)) (s : SchedState) : SchedState :=
  chunks.foldl (fun st c => playAudioChunk (some c.1) c.2 st) s

/-- No underrun: at every enqueue the output clock has not passed the
cursor. -/
def noUnderrun (s : SchedState) : List (ℚ × ℚ) → Bool
  | [] => true
  | c :: rest =>
      decide (c.2 ≤ s.nextStartTime) &&
      noUnderrun (playAudioChunk (some c.1) c.2 s) rest

/-- Start times of a gapless run beginning at a given cursor value. -/
def startsFrom (nst : ℚ) : List (ℚ × ℚ) → List ℚ
  | [] => []
  | c :: rest => nst :: startsFrom (nst + c.1) rest

/-- A scheduler state that has never played anything. -/
def freshSched : SchedState := ⟨0, [], [], [], 0⟩

/-! ## Transcription accumulators and turn flush (src/index.tsx 766-810)

State: the two accumulator refs `currentInputTranscriptionRef` /
`currentOutputTranscriptionRef`, the committed transcript log, and the
streaming `currentTurn` display list.  A server message carries an optional
output-transcription delta, an optional input-transcription delta and a
turn-complete flag; the handler checks the output delta first (`else if`
on line 773). -/

inductive Speaker
  | user
  | model
deriving DecidableEq

structure Turn where
  speaker : Speaker
  text : String
deriving DecidableEq

structure ChatState where
  inAcc : String
  outAcc : String
  transcript : List Turn
  currentTurn : List Turn
deriving DecidableEq

/-- The transcription-relevant fields of a `LiveServerMessage`'s
`serverContent`. -/
structure ServerContentMsg where
  outputTranscription : Option String
  inputTranscription : Option String
  turnComplete : Bool

/-- The transcription part of the `onmessage` callback (src/index.tsx
lines 766-810): append the delta to the matching accumulator (output
checked first), refresh the streaming `currentTurn` from the trimmed
accumulators, and on `turnComplete` push the trimmed accumulators (user
entry first, each omitted when empty) onto the transcript, clear
`currentTurn` and empty both accumulators. -/
def onmessageTranscription (m : ServerContentMsg) (st : ChatState) :
    ChatState :=
  let upd :=
    match m.outputTranscription with
    | some t => ({ st with outAcc := st.outAcc ++ t }, true)
    | none =>
        match m.inputTranscription with
        | some t => ({ st with inAcc := st.inAcc ++ t }, true)
        | none => (st, false)
  let st1 := upd.1
  let st2 :=
    if upd.2 then
      { st1 with currentTurn :=
          (if st1.inAcc.trim ≠ "" then [⟨.user, st1.inAcc.trim⟩] else []) ++
          (if st1.outAcc.trim ≠ "" then [⟨.model, st1.outAcc.trim⟩] else []) }
    else st1
  if m.turnComplete then
    { inAcc := ""
      outAcc := ""
      transcript := st2.transcript ++
        (if st2.inAcc.trim ≠ "" then [⟨.user, st2.inAcc.trim⟩] else []) ++
        (if st2.outAcc.trim ≠ "" then [⟨.model, st2.outAcc.trim⟩] else [])
      currentTurn := [] }
  else st2

/-- A partial transcription delta, as routed by the claim scenario. -/
inductive TDelta
  | input (s : String)
  | output (s : String)

/-- The server message carrying one delta and no turn-complete flag. -/
def deltaMsg : TDelta → ServerContentMsg
  | .input s => ⟨none, some s, false⟩
  | .output s => ⟨some s, none, false⟩

/-- The server message carrying only the turn-complete flag. -/
def turnCompleteMsg : ServerContentMsg := ⟨none, none, true⟩

/-- Processing a list of server messages in arrival order. -/
def processMsgs (ms : List ServerContentMsg) (st : ChatState) : ChatState :=
  ms.foldl (fun s m => onmessageTranscription m s) st

/-- Concatenation of the input deltas of a turn, in arrival order. -/
def inputConcat : List TDelta → String
  | [] => ""
  | .input s :: rest => s ++ inputConcat rest
  | .output _ :: rest => inputConcat rest

/-- Concatenation of the output deltas of a turn, in arrival order. -/
def outputConcat : List TDelta → String
  | [] => ""
  | .input _ :: rest => outputConcat rest
  | .output s :: rest => s ++ outputConcat rest

/-- A chat state with empty accumulators and empty logs. -/
def emptyChat : ChatState := ⟨"", "", [], []⟩

/-! ## Session controller (src/index.tsx lines 581-632 and 881-889)

The session refs are modelled as presence flags (`true` = the ref holds a
live handle, `false` = it is `null`), the media stream as an optional list
of track ids, and every externally observable teardown call (`track.stop`,
`session.close`, `cancelAnimationFrame`, `node.disconnect`, `ctx.close`)
as an entry appended to an ordered action log.  `stopConversation` is an
`async` function whose only suspension point is `await
sessionPromiseRef.current`; the part before that suspension and the
continuation after it are therefore separate definitions, composed by
`stopConversation` and interleaved differently by the `onerror` handler,
which calls `stopConversation()` without awaiting it. -/

inductive NodeName
  | inputGainNode
  | scriptProcessor
  | mediaStreamSource
  | analyserNode
  | inputAudioContext
  | outputAudioContext
deriving DecidableEq

inductive TeardownAction
  | trackStop (id : Nat)
  | sessionClose
  | cancelAnimation
  | nodeDisconnect (n : NodeName)
  | ctxClose (n : NodeName)
deriving DecidableEq

inductive ConnState
  | idle
  | connecting
  | connected
  | error
deriving DecidableEq

structure SessionState where
  streamTracks : Option (List Nat)
  sessionOpen : Bool
  inputGainNode : Bool
  scriptProcessor : Bool
  mediaStreamSource : Bool
  analyserNode : Bool
  inputAudioContext : Bool
  outputAudioContext : Bool
  animationFrameId : Bool
  canvasCleared : Bool
  connectionState : ConnState
  errorMsg : Option String
  vad : VadState
  isSpeaking : Bool
  isMuted : Bool
  chat : ChatState
  sched : SchedState
  log : List TeardownAction
deriving DecidableEq

/-- Lines 582-586: stop every track of the microphone stream and null the
stream ref. -/
def stopTracks (s : SessionState) : SessionState :=
  match s.streamTracks with
  | some ts => { s with streamTracks := none, log := s.log ++ ts.map .trackStop }
  | none => s

/-- Lines 589-593 (after the `await`): close the live session and null the
promise ref. -/
def closeSession (s : SessionState) : SessionState :=
  { s with sessionOpen := false, log := s.log ++ [.sessionClose] }

/-- `stopVisualizer` (src/index.tsx lines 567-579): cancel the pending
animation frame if one is scheduled and clear the canvas. -/
def stopVisualizer (s : SessionState) : SessionState :=
  let s1 :=
    if s.animationFrameId then
      { s with animationFrameId := false, log := s.log ++ [.cancelAnimation] }
    else s
  { s1 with canvasCleared := true }

/-- Lines 598-610: disconnect each non-null audio-graph node, close each
non-null audio context (optional chaining: a null ref is skipped), then
null all of those refs. -/
def disconnectGraph (s : SessionState) : SessionState :=
  { s with
    log := s.log ++
      (if s.inputGainNode then [.nodeDisconnect .inputGainNode] else []) ++
      (if s.scriptProcessor then [.nodeDisconnect .scriptProcessor] else []) ++
      (if s.mediaStreamSource then [.nodeDisconnect .mediaStreamSource] else []) ++
      (if s.analyserNode then [.nodeDisconnect .analyserNode] else []) ++
      (if s.inputAudioContext then [.ctxClose .inputAudioContext] else []) ++
      (if s.outputAudioContext then [.ctxClose .outputAudioContext] else [])
    inputGainNode := false
    scriptProcessor := false
    mediaStreamSource := false
    analyserNode := false
    inputAudioContext := false
    outputAudioContext := false }

/-- Lines 612-624: interrupt playback, reset the VAD refs, land in IDLE,
clear the speaking flag, the streaming turn and the mute flag.  The turn
accumulator refs are not touched here. -/
def resetAfterStop (s : SessionState) : SessionState :=
  { s with
    sched := interruptAndClearAudioQueue s.sched
    vad := initialVadState
    connectionState := .idle
    isSpeaking := false
    chat := { s.chat with currentTurn := [] }
    isMuted := false }

/-- Everything in `stopConversation` after the session-promise `await`
(or after the skipped `if` when there is no session promise). -/
def stopTail (s : SessionState) : SessionState :=
  resetAfterStop (disconnectGraph (stopVisualizer s))

/-- `stopConversation` (src/index.tsx lines 581-625), run to completion:
stop the stream tracks; if a session promise is pending, await it and
close the session; then the tail teardown. -/
def stopConversation (s : SessionState) : SessionState :=
  let s1 := stopTracks s
  if s1.sessionOpen then stopTail (closeSession s1) else stopTail s1

def setConnState (c : ConnState) (s : SessionState) : SessionState :=
  { s with connectionState := c }

def setErrorMsg (m : String) (s : SessionState) : SessionState :=
  { s with errorMsg := some m }

/-- The error string of the `onerror` callback (src/index.tsx line 885). -/
def conversationErrText : String := "An error occurred during the conversation."

/-- The `onclose` callback (src/index.tsx lines 881-883): it only calls
`stopConversation()`. -/
def onCloseHandler (s : SessionState) : SessionState :=
  stopConversation s

/-- The `onerror` callback (src/index.tsx lines 884-889): `setError`, then
`stopConversation()` — invoked but not awaited — then
`setConnectionState('error')`.  When a session promise is pending,
`stopConversation` suspends at `await sessionPromiseRef.current`, so the
`setConnectionState('error')` write executes between the synchronous part
of the teardown and its continuation, and the continuation's
`setConnectionState('idle')` lands last; without a session promise the
`async` body runs to completion synchronously and the ERROR write lands
last. -/
def onErrorHandler (msg : String) (s : SessionState) : SessionState :=
  let s0 := setErrorMsg msg s
  let s1 := stopTracks s0
  if s1.sessionOpen then stopTail (closeSession (setConnState .error s1))
  else setConnState .error (stopTail s1)

/-- A mid-conversation session state: live stream with one track, pending
session promise, full audio graph, running visualizer. -/
def activeSessionState : SessionState where
  streamTracks := some [0]
  sessionOpen := true
  inputGainNode := true
  scriptProcessor := true
  mediaStreamSource := true
  analyserNode := true
  inputAudioContext := true
  outputAudioContext := true
  animationFrameId := true
  canvasCleared := false
  connectionState := .connected
  errorMsg := none
  vad := initialVadState
  isSpeaking := false
  isMuted := false
  chat := emptyChat
  sched := freshSched
  log := []

/-- An active session caught mid-turn: both transcription accumulators
hold pending text. -/
def midTurnSessionState : SessionState :=
  { activeSessionState with chat := ⟨"hello", "there", [], []⟩ }

/-- The state before any session was ever started. -/
def idleSessionState : SessionState where
  streamTracks := none
  sessionOpen := false
  inputGainNode := false
  scriptProcessor := false
  mediaStreamSource := false
  analyserNode := false
  inputAudioContext := false
  outputAudioContext := false
  animationFrameId := false
  canvasCleared := true
  connectionState := .idle
  errorMsg := none
  vad := initialVadState
  isSpeaking := false
  isMuted := false
  chat := emptyChat
  sched := freshSched
  log := []

/-! ## Helper lemmas -/

theorem b64Index_b64Char : ∀ x : Nat, x < 64 → b64Index (b64Char x) = x := by
  decide

theorem b64Char_ne_pad : ∀ x : Nat, x < 64 → b64Char x ≠ '=' := by
  decide

/-- Decoding inverts encoding on any list of bytes. -/
theorem atobChars_btoaBytes (l : List Nat) (h : ∀ x ∈ l, x < 256) :
    atobChars (btoaBytes l) = l := by
  induction l using btoaBytes.induct with
  | case1 => simp [btoaBytes, atobChars]
  | case2 b1 =>
    have hb1 : b1 < 256 := h b1 (by simp)
    rw [btoaBytes, atobChars]
    rw [if_pos rfl]
    rw [b64Index_b64Char _ (by omega), b64Index_b64Char _ (by omega)]
    simp only [List.cons.injEq, and_true]
    omega
  | case3 b1 b2 =>
    have hb1 : b1 < 256 := h b1 (by simp)
    have hb2 : b2 < 256 := h b2 (by simp)
    rw [btoaBytes, atobChars]
    rw [if_neg (b64Char_ne_pad _ (by omega)), if_pos rfl]
    rw [b64Index_b64Char _ (by omega), b64Index_b64Char _ (by omega),
      b64Index_b64Char _ (by omega)]
    simp only [List.cons.injEq, and_true]
    omega
  | case4 b1 b2 b3 rest ih =>
    have hb1 : b1 < 256 := h b1 (by simp)
    have hb2 : b2 < 256 := h b2 (by simp)
    have hb3 : b3 < 256 := h b3 (by simp)
    rw [btoaBytes, atobChars]
    rw [if_neg (b64Char_ne_pad _ (by omega)),
      if_neg (b64Char_ne_pad _ (by omega))]
    rw [b64Index_b64Char _ (by omega), b64Index_b64Char _ (by omega),
      b64Index_b64Char _ (by omega), b64Index_b64Char _ (by omega)]
    rw [ih (fun x hx => h x (by simp [hx]))]
    simp only [List.cons.injEq, and_true]
    omega

theorem vadRun_cons (t : VadConfig) (f : Bool) (fs : List Bool)
    (s : VadState) : vadRun t (f :: fs) s = vadRun t fs (vadStep t f s) :=
  rfl

/-- A run of `j ≥ 1` consecutive speech frames adds `j` to the speech
streak, zeroes the silence streak, and flips the phase to SPEAKING exactly
when the streak reaches the confirmation threshold. -/
theorem vadRun_true_eq (t : VadConfig) :
    ∀ (j : Nat) (s : VadState), 1 ≤ j →
      vadRun t (List.replicate j true) s =
        ⟨if t.speechBuffers ≤ s.speech + j then .SPEAKING else s.phase,
         s.speech + j, 0⟩ := by
  intro j
  induction j with
  | zero => intro s h; exact absurd h (by omega)
  | succ j ih =>
    intro s _
    by_cases hj : j = 0
    · subst hj
      simp [vadRun, vadStep]
    · have hj1 : 1 ≤ j := Nat.one_le_iff_ne_zero.mpr hj
      rw [List.replicate_succ, vadRun_cons, ih (vadStep t true s) hj1]
      have hsp : (vadStep t true s).speech = s.speech + 1 := by
        simp [vadStep]
      have hph : (vadStep t true s).phase =
          if t.speechBuffers ≤ s.speech + 1 then .SPEAKING else s.phase := by
        simp [vadStep]
      rw [hsp, hph]
      simp only [VadState.mk.injEq]
      refine ⟨?_, by omega, trivial⟩
      by_cases h1 : t.speechBuffers ≤ s.speech + 1 + j
      · have h2 : t.speechBuffers ≤ s.speech + (j + 1) := by omega
        simp [h1, h2]
      · have h2 : ¬ t.speechBuffers ≤ s.speech + (j + 1) := by omega
        have h3 : ¬ t.speechBuffers ≤ s.speech + 1 := by omega
        simp [h1, h2, h3]

/-- A run of `j ≥ 1` consecutive non-speech frames adds `j` to the silence
streak, zeroes the speech streak, and flips the phase to SILENCE exactly
when the streak reaches the confirmation threshold. -/
theorem vadRun_false_eq (t : VadConfig) :
    ∀ (j : Nat) (s : VadState), 1 ≤ j →
      vadRun t (List.replicate j false) s =
        ⟨if t.silenceBuffers ≤ s.silence + j then .SILENCE else s.phase,
         0, s.silence + j⟩ := by
  intro j
  induction j with
  | zero => intro s h; exact absurd h (by omega)
  | succ j ih =>
    intro s _
    by_cases hj : j = 0
    · subst hj
      simp [vadRun, vadStep]
    · have hj1 : 1 ≤ j := Nat.one_le_iff_ne_zero.mpr hj
      rw [List.replicate_succ, vadRun_cons, ih (vadStep t false s) hj1]
      have hsi : (vadStep t false s).silence = s.silence + 1 := by
        simp [vadStep]
      have hph : (vadStep t false s).phase =
          if t.silenceBuffers ≤ s.silence + 1 then .SILENCE else s.phase := by
        simp [vadStep]
      rw [hsi, hph]
      simp only [VadState.mk.injEq]
      refine ⟨?_, trivial, by omega⟩
      by_cases h1 : t.silenceBuffers ≤ s.silence + 1 + j
      · have h2 : t.silenceBuffers ≤ s.silence + (j + 1) := by omega
        simp [h1, h2]
      · have h2 : ¬ t.silenceBuffers ≤ s.silence + (j + 1) := by omega
        have h3 : ¬ t.silenceBuffers ≤ s.silence + 1 := by omega
        simp [h1, h2, h3]

/-- From rest, a streak of fewer than `speechBuffers` potential-speech
frames leaves the phase at SILENCE; the `speechBuffers`-th frame flips it
to SPEAKING. -/
theorem speech_confirm_general (t : VadConfig) (hb : 1 ≤ t.speechBuffers) :
    (∀ j, 1 ≤ j → j < t.speechBuffers →
      (vadRun t (List.replicate j true) initialVadState).phase = .SILENCE) ∧
    (vadRun t (List.replicate t.speechBuffers true) initialVadState).phase =
      .SPEAKING := by
  constructor
  · intro j h1 h2
    rw [vadRun_true_eq t j initialVadState h1]
    show (if t.speechBuffers ≤ initialVadState.speech + j then
        VadPhase.SPEAKING else initialVadState.phase) = .SILENCE
    rw [if_neg (by simp [initialVadState]; omega)]
    rfl
  · rw [vadRun_true_eq t t.speechBuffers initialVadState hb]
    show (if t.speechBuffers ≤ initialVadState.speech + t.speechBuffers then
        VadPhase.SPEAKING else initialVadState.phase) = .SPEAKING
    rw [if_pos (by simp [initialVadState])]

/-- From SPEAKING with a clean silence streak, fewer than `silenceBuffers`
non-speech frames leave the phase at SPEAKING; the `silenceBuffers`-th
flips it to SILENCE. -/
theorem silence_confirm_general (t : VadConfig) (hb : 1 ≤ t.silenceBuffers)
    (s : VadState) (hp : s.phase = .SPEAKING) (hs : s.silence = 0) :
    (∀ j, 1 ≤ j → j < t.silenceBuffers →
      (vadRun t (List.replicate j false) s).phase = .SPEAKING) ∧
    (vadRun t (List.replicate t.silenceBuffers false) s).phase = .SILENCE := by
  constructor
  · intro j h1 h2
    rw [vadRun_false_eq t j s h1]
    show (if t.silenceBuffers ≤ s.silence + j then
        VadPhase.SILENCE else s.phase) = .SPEAKING
    rw [if_neg (by omega), hp]
  · rw [vadRun_false_eq t t.silenceBuffers s hb]
    show (if t.silenceBuffers ≤ s.silence + t.silenceBuffers then
        VadPhase.SILENCE else s.phase) = .SILENCE
    rw [if_pos (by omega)]

theorem enqueueAll_cons (c : ℚ × ℚ) (chunks : List (ℚ × ℚ))
    (s : SchedState) :
    enqueueAll (c :: chunks) s =
      enqueueAll chunks (playAudioChunk (some c.1) c.2 s) :=
  rfl

/-- Under no underrun, the start log appended by a run of enqueues is the
gapless schedule beginning at the incoming cursor value. -/
theorem enqueueAll_startLog :
    ∀ (chunks : List (ℚ × ℚ)) (s : SchedState),
      noUnderrun s chunks = true →
      (enqueueAll chunks s).startLog =
        s.startLog ++ startsFrom s.nextStartTime chunks := by
  intro chunks
  induction chunks with
  | nil => intro s _; simp [enqueueAll, startsFrom]
  | cons c rest ih =>
    intro s h
    rw [noUnderrun] at h
    simp only [Bool.and_eq_true, decide_eq_true_eq] at h
    obtain ⟨hle, hrest⟩ := h
    rw [enqueueAll_cons, ih _ hrest]
    have hmax : max s.nextStartTime c.2 = s.nextStartTime :=
      max_eq_left hle
    simp [playAudioChunk, hmax, startsFrom]

/-- Consecutive entries of a gapless schedule differ by exactly the
duration of the earlier chunk. -/
theorem startsFrom_succ :
    ∀ (chunks : List (ℚ × ℚ)) (nst : ℚ) (i : Nat), i + 1 < chunks.length →
      (startsFrom nst chunks).getD (i + 1) 0 =
        (startsFrom nst chunks).getD i 0 + (chunks.getD i (0, 0)).1 := by
  intro chunks
  induction chunks with
  | nil => intro nst i hi; simp at hi
  | cons c rest ih =>
    intro nst i hi
    cases i with
    | zero =>
      cases rest with
      | nil => simp at hi
      | cons c2 rest2 => simp [startsFrom]
    | succ i =>
      have hi2 : i + 1 < rest.length := by
        simpa using hi
      simpa [startsFrom] using ih (nst + c.1) i hi2

theorem processMsgs_cons (m : ServerContentMsg) (ms : List ServerContentMsg)
    (st : ChatState) :
    processMsgs (m :: ms) st = processMsgs ms (onmessageTranscription m st) :=
  rfl

theorem onmessage_inputDelta (s : String) (st : ChatState) :
    onmessageTranscription (deltaMsg (.input s)) st =
      { st with
        inAcc := st.inAcc ++ s
        currentTurn :=
          (if (st.inAcc ++ s).trim ≠ "" then [⟨.user, (st.inAcc ++ s).trim⟩] else []) ++
          (if st.outAcc.trim ≠ "" then [⟨.model, st.outAcc.trim⟩] else []) } := by
  simp [onmessageTranscription, deltaMsg]

theorem onmessage_outputDelta (s : String) (st : ChatState) :
    onmessageTranscription (deltaMsg (.output s)) st =
      { st with
        outAcc := st.outAcc ++ s
        currentTurn :=
          (if st.inAcc.trim ≠ "" then [⟨.user, st.inAcc.trim⟩] else []) ++
          (if (st.outAcc ++ s).trim ≠ "" then [⟨.model, (st.outAcc ++ s).trim⟩] else []) } := by
  simp [onmessageTranscription, deltaMsg]

/-- Routing deltas only appends to the accumulators: the transcript log is
untouched and each accumulator grows by exactly its own deltas in order. -/
theorem processMsgs_deltas :
    ∀ (ds : List TDelta) (st : ChatState),
      (processMsgs (ds.map deltaMsg) st).inAcc = st.inAcc ++ inputConcat ds ∧
      (processMsgs (ds.map deltaMsg) st).outAcc = st.outAcc ++ outputConcat ds ∧
      (processMsgs (ds.map deltaMsg) st).transcript = st.transcript := by
  intro ds
  induction ds with
  | nil => intro st; simp [processMsgs, inputConcat, outputConcat]
  | cons d rest ih =>
    intro st
    cases d with
    | input s =>
      rw [List.map_cons, processMsgs_cons, onmessage_inputDelta]
      obtain ⟨h1, h2, h3⟩ := ih { st with
        inAcc := st.inAcc ++ s
        currentTurn :=
          (if (st.inAcc ++ s).trim ≠ "" then [⟨.user, (st.inAcc ++ s).trim⟩] else []) ++
          (if st.outAcc.trim ≠ "" then [⟨.model, st.outAcc.trim⟩] else []) }
      refine ⟨?_, ?_, ?_⟩
      · rw [h1]; simp [inputConcat, String.append_assoc]
      · rw [h2]; simp [outputConcat]
      · rw [h3]
    | output s =>
      rw [List.map_cons, processMsgs_cons, onmessage_outputDelta]
      obtain ⟨h1, h2, h3⟩ := ih { st with
        outAcc := st.outAcc ++ s
        currentTurn :=
          (if st.inAcc.trim ≠ "" then [⟨.user, st.inAcc.trim⟩] else []) ++
          (if (st.outAcc ++ s).trim ≠ "" then [⟨.model, (st.outAcc ++ s).trim⟩] else []) }
      refine ⟨?_, ?_, ?_⟩
      · rw [h1]; simp [inputConcat]
      · rw [h2]; simp [outputConcat, String.append_assoc]
      · rw [h3]

theorem onmessage_turnComplete (st : ChatState) :
    onmessageTranscription turnCompleteMsg st =
      { inAcc := ""
        outAcc := ""
        transcript := st.transcript ++
          (if st.inAcc.trim ≠ "" then [⟨.user, st.inAcc.trim⟩] else []) ++
          (if st.outAcc.trim ≠ "" then [⟨.model, st.outAcc.trim⟩] else [])
        currentTurn := [] } := by
  simp [onmessageTranscription, turnCompleteMsg]

theorem stopTail_connectionState (s : SessionState) :
    (stopTail s).connectionState = .idle :=
  rfl

/-- A second `stopConversation` finds every ref already null and appends
nothing: it returns the identical state. -/
theorem stopConversation_stopConversation (s : SessionState) :
    stopConversation (stopConversation s) = stopConversation s := by
  obtain ⟨tr, so, g, sp, ms, an, ic, oc, af, cc, cs, em, vd, isp, im, ch, sch, lg⟩ := s
  cases tr <;> cases so <;> cases af <;>
    simp [stopConversation, stopTracks, closeSession, stopVisualizer,
      disconnectGraph, resetAfterStop, stopTail, interruptAndClearAudioQueue]

theorem stopConversation_connState (s : SessionState) :
    (stopConversation s).connectionState = .idle := by
  simp only [stopConversation]
  split <;> exact stopTail_connectionState _

/-- The complete teardown log of stopping a fully active session (twice):
every track stopped once, the session closed once, the animation frame
cancelled once, every node disconnected and every context closed once. -/
theorem stopConversation_active_log (s : SessionState) (ts : List Nat)
    (hlog : s.log = []) (htr : s.streamTracks = some ts)
    (hso : s.sessionOpen = true) (hg : s.inputGainNode = true)
    (hsp : s.scriptProcessor = true) (hms : s.mediaStreamSource = true)
    (han : s.analyserNode = true) (hic : s.inputAudioContext = true)
    (hoc : s.outputAudioContext = true) (haf : s.animationFrameId = true) :
    (stopConversation (stopConversation s)).log =
      ts.map .trackStop ++
      [.sessionClose, .cancelAnimation,
       .nodeDisconnect .inputGainNode, .nodeDisconnect .scriptProcessor,
       .nodeDisconnect .mediaStreamSource, .nodeDisconnect .analyserNode,
       .ctxClose .inputAudioContext, .ctxClose .outputAudioContext] := by
  obtain ⟨tr, so, g, sp, ms, an, ic, oc, af, cc, cs, em, vd, isp, im, ch, sch, lg⟩ := s
  simp only at hlog htr hso hg hsp hms han hic hoc haf
  subst hlog htr hso hg hsp hms han hic hoc haf
  simp [stopConversation, stopTracks, closeSession, stopVisualizer,
    disconnectGraph, resetAfterStop, stopTail, interruptAndClearAudioQueue]

theorem count_trackStop_map (i : Nat) :
    ∀ ts : List Nat,
      (ts.map TeardownAction.trackStop).count (.trackStop i) = ts.count i := by
  intro ts
  induction ts with
  | nil => rfl
  | cons a ts ih =>
    simp [List.count_cons, ih]

theorem count_map_trackStop_eq_zero (x : TeardownAction)
    (hx : ∀ i : Nat, x ≠ .trackStop i) (ts : List Nat) :
    (ts.map TeardownAction.trackStop).count x = 0 := by
  rw [List.count_eq_zero]
  intro hmem
  rw [List.mem_map] at hmem
  obtain ⟨i, _, hi⟩ := hmem
  exact hx i hi.symm

/-! ## Claim theorems -/

/-- C10: the base64 transport codec round-trips — for every byte array
`b`, `decode (encode b) = b`, so an audio payload encoded for transmission
is recovered bit-for-bit by the receiving decode step. -/
theorem decode_encode_roundtrip (b : List Nat) (h : ∀ x ∈ b, x < 256) :
    decode (encode b) = b :=
  atobChars_btoaBytes b h

/-- Witness for the C10 theorem at a concrete five-byte payload. -/
theorem decode_encode_roundtrip_witness :
    (∀ x ∈ [72, 101, 255, 0, 1], x < 256) ∧
    decode (encode [72, 101, 255, 0, 1]) = [72, 101, 255, 0, 1] :=
  ⟨by decide, decode_encode_roundtrip [72, 101, 255, 0, 1] (by decide)⟩

/-- C3: `interruptAndClearAudioQueue` always empties the live set of
output units and zeroes the playback cursor, whatever was enqueued, and a
second immediate call is a no-op: it produces the identical state (in
particular it stops no further unit). -/
theorem interruptAndClear_idempotent_reset (s : SchedState) :
    (interruptAndClearAudioQueue s).sources = [] ∧
    (interruptAndClearAudioQueue s).nextStartTime = 0 ∧
    interruptAndClearAudioQueue (interruptAndClearAudioQueue s) =
      interruptAndClearAudioQueue s := by
  refine ⟨rfl, rfl, ?_⟩
  simp [interruptAndClearAudioQueue]

/-- C7: a failed decode is local to the scheduler: under no underrun the
state is completely unchanged — the cursor is not advanced, no unit is
created or started — and any subsequent enqueue behaves exactly as if the
bad chunk had never arrived. -/
theorem decode_failure_local (s : SchedState) (now : ℚ)
    (h : now ≤ s.nextStartTime) (dec2 : Option ℚ) (now2 : ℚ) :
    playAudioChunk none now s = s ∧
    playAudioChunk dec2 now2 (playAudioChunk none now s) =
      playAudioChunk dec2 now2 s ∧
    (playAudioChunk none now s).startLog = s.startLog ∧
    (playAudioChunk none now s).sources = s.sources := by
  have h1 : playAudioChunk none now s = s := by
    simp [playAudioChunk, max_eq_left h]
  exact ⟨h1, by rw [h1], by rw [h1], by rw [h1]⟩

/-- Witness for the C7 theorem: a bad chunk at clock time 1 against cursor
2, followed by a good 3-second chunk at clock time 2. -/
theorem decode_failure_local_witness :
    ((1 : ℚ) ≤ (SchedState.mk 2 [7] [0] [] 8).nextStartTime) ∧
    (playAudioChunk none 1 (SchedState.mk 2 [7] [0] [] 8) =
        SchedState.mk 2 [7] [0] [] 8 ∧
      playAudioChunk (some 3) 2 (playAudioChunk none 1 (SchedState.mk 2 [7] [0] [] 8)) =
        playAudioChunk (some 3) 2 (SchedState.mk 2 [7] [0] [] 8) ∧
      (playAudioChunk none 1 (SchedState.mk 2 [7] [0] [] 8)).startLog =
        (SchedState.mk 2 [7] [0] [] 8).startLog ∧
      (playAudioChunk none 1 (SchedState.mk 2 [7] [0] [] 8)).sources =
        (SchedState.mk 2 [7] [0] [] 8).sources) :=
  ⟨by norm_num, decode_failure_local (SchedState.mk 2 [7] [0] [] 8) 1
    (by norm_num) (some 3) 2⟩

/-- C9 counterexample: `stopConversation` does not clear the turn
accumulators — stopping the mid-turn session leaves the pending input
transcript `hello` (and the pending output transcript `there`) in place,
so the accumulators are not empty after `stop()`. -/
theorem stop_accumulators_cex :
    (stopConversation midTurnSessionState).chat.inAcc = "hello" ∧
    (stopConversation midTurnSessionState).chat.outAcc = "there" ∧
    ¬ ((stopConversation midTurnSessionState).chat.inAcc = "" ∧
       (stopConversation midTurnSessionState).chat.outAcc = "") := by
  refine ⟨by decide, by decide, ?_⟩
  intro hc
  have h1 : (stopConversation midTurnSessionState).chat.inAcc = "hello" := by
    decide
  rw [hc.1] at h1
  exact absurd h1 (by decide)

/-- C9 (amended): after every invocation of `stop()` the VAD state equals
`{SILENCE, 0, 0}`, but the two turn accumulators are left unchanged by
`stop()` (they are emptied only by a turn-complete flush or a chat
clear). -/
theorem stop_resets_vad_accumulators_unchanged (s : SessionState) :
    (stopConversation s).vad = initialVadState ∧
    (stopConversation s).chat.inAcc = s.chat.inAcc ∧
    (stopConversation s).chat.outAcc = s.chat.outAcc := by
  obtain ⟨tr, so, g, sp, ms, an, ic, oc, af, cc, cs, em, vd, isp, im, ch, sch, lg⟩ := s
  cases tr <;> cases so <;> cases af <;>
    simp [stopConversation, stopTracks, closeSession, stopVisualizer,
      disconnectGraph, resetAfterStop, stopTail]

/-- C6: the code's `onclose` runs exactly the `stopConversation` teardown
and lands in IDLE; but `onerror` on a mid-conversation state (where a
session promise is pending) also lands in IDLE, not ERROR, because the
unawaited `stopConversation()` suspends at its `await` and its
continuation's `setConnectionState('idle')` executes after the handler's
`setConnectionState('error')` — only the error message survives.  This
exhibits the divergence from the claimed ERROR final state. -/
theorem onerror_teardown_lands_idle :
    onCloseHandler activeSessionState = stopConversation activeSessionState ∧
    (onCloseHandler activeSessionState).connectionState = .idle ∧
    (onErrorHandler conversationErrText activeSessionState).errorMsg =
      some conversationErrText ∧
    (onErrorHandler conversationErrText activeSessionState).connectionState =
      .idle ∧
    ¬ (onErrorHandler conversationErrText activeSessionState).connectionState =
      .error := by
  refine ⟨rfl, by decide, by decide, by decide, ?_⟩
  intro hc
  have h1 : (onErrorHandler conversationErrText activeSessionState).connectionState =
      .idle := by decide
  rw [hc] at h1
  exact absurd h1 (by decide)

/-- C1: for a sequence of chunks enqueued sequentially with no
interruption and no underrun, the scheduled start times satisfy
`start(i+1) = start(i) + d(i)` — no gap and no overlap between consecutive
units. -/
theorem playAudioChunk_gapless (s : SchedState) (chunks : List (ℚ × ℚ))
    (h : noUnderrun s chunks = true) (i : Nat) (hi : i + 1 < chunks.length) :
    ((enqueueAll chunks s).startLog.drop s.startLog.length).getD (i + 1) 0 =
      ((enqueueAll chunks s).startLog.drop s.startLog.length).getD i 0 +
        (chunks.getD i (0, 0)).1 := by
  rw [enqueueAll_startLog chunks s h, List.drop_left]
  exact startsFrom_succ chunks s.nextStartTime i hi

/-- Witness for the C1 theorem: three chunks of durations 1, 2, 3 enqueued
into a fresh scheduler. -/
theorem playAudioChunk_gapless_witness :
    noUnderrun freshSched [(1, 0), (2, 0), (3, 0)] = true ∧
    0 + 1 < ([(1, 0), (2, 0), (3, 0)] : List (ℚ × ℚ)).length ∧
    ((enqueueAll [(1, 0), (2, 0), (3, 0)] freshSched).startLog.drop
        freshSched.startLog.length).getD (0 + 1) 0 =
      ((enqueueAll [(1, 0), (2, 0), (3, 0)] freshSched).startLog.drop
        freshSched.startLog.length).getD 0 0 +
        (([(1, 0), (2, 0), (3, 0)] : List (ℚ × ℚ)).getD 0 (0, 0)).1 :=
  ⟨by norm_num [noUnderrun, playAudioChunk, freshSched], by decide,
   playAudioChunk_gapless freshSched [(1, 0), (2, 0), (3, 0)]
     (by norm_num [noUnderrun, playAudioChunk, freshSched]) 0 (by decide)⟩

/-- C2: for every sensitivity tier, a run of potentially-speech frames
from the reset state flips the phase to SPEAKING exactly at the
`speechBuffers`-th frame and not earlier; from SPEAKING, non-speech frames
flip it to SILENCE exactly at the `silenceBuffers`-th frame; in
particular, on the medium tier, two speech frames yield SPEAKING, nine
further silence frames leave SPEAKING, the tenth yields SILENCE. -/
theorem vad_hysteresis (t : VadConfig)
    (ht : t = VAD_THRESHOLDS .low ∨ t = VAD_THRESHOLDS .medium ∨
      t = VAD_THRESHOLDS .high) :
    (∀ j, 1 ≤ j → j < t.speechBuffers →
      (vadRun t (List.replicate j true) initialVadState).phase = .SILENCE) ∧
    (vadRun t (List.replicate t.speechBuffers true) initialVadState).phase =
      .SPEAKING ∧
    (∀ s : VadState, s.phase = .SPEAKING → s.silence = 0 →
      (∀ j, 1 ≤ j → j < t.silenceBuffers →
        (vadRun t (List.replicate j false) s).phase = .SPEAKING) ∧
      (vadRun t (List.replicate t.silenceBuffers false) s).phase =
        .SILENCE) ∧
    (vadRun (VAD_THRESHOLDS .medium) (List.replicate 2 true)
      initialVadState).phase = .SPEAKING ∧
    (vadRun (VAD_THRESHOLDS .medium)
      (List.replicate 2 true ++ List.replicate 9 false)
      initialVadState).phase = .SPEAKING ∧
    (vadRun (VAD_THRESHOLDS .medium)
      (List.replicate 2 true ++ List.replicate 10 false)
      initialVadState).phase = .SILENCE := by
  have hsb : 1 ≤ t.speechBuffers := by
    rcases ht with h | h | h <;> subst h <;> decide
  have hlb : 1 ≤ t.silenceBuffers := by
    rcases ht with h | h | h <;> subst h <;> decide
  exact ⟨(speech_confirm_general t hsb).1, (speech_confirm_general t hsb).2,
    fun s hp hs => silence_confirm_general t hlb s hp hs,
    by decide, by decide, by decide⟩

/-- Witness for the C2 theorem, instantiated at the medium tier. -/
theorem vad_hysteresis_witness :
    (VAD_THRESHOLDS .medium = VAD_THRESHOLDS .low ∨
     VAD_THRESHOLDS .medium = VAD_THRESHOLDS .medium ∨
     VAD_THRESHOLDS .medium = VAD_THRESHOLDS .high) ∧
    ((∀ j, 1 ≤ j → j < (VAD_THRESHOLDS .medium).speechBuffers →
      (vadRun (VAD_THRESHOLDS .medium) (List.replicate j true)
        initialVadState).phase = .SILENCE) ∧
    (vadRun (VAD_THRESHOLDS .medium)
      (List.replicate (VAD_THRESHOLDS .medium).speechBuffers true)
      initialVadState).phase = .SPEAKING ∧
    (∀ s : VadState, s.phase = .SPEAKING → s.silence = 0 →
      (∀ j, 1 ≤ j → j < (VAD_THRESHOLDS .medium).silenceBuffers →
        (vadRun (VAD_THRESHOLDS .medium) (List.replicate j false) s).phase =
          .SPEAKING) ∧
      (vadRun (VAD_THRESHOLDS .medium)
        (List.replicate (VAD_THRESHOLDS .medium).silenceBuffers false)
        s).phase = .SILENCE) ∧
    (vadRun (VAD_THRESHOLDS .medium) (List.replicate 2 true)
      initialVadState).phase = .SPEAKING ∧
    (vadRun (VAD_THRESHOLDS .medium)
      (List.replicate 2 true ++ List.replicate 9 false)
      initialVadState).phase = .SPEAKING ∧
    (vadRun (VAD_THRESHOLDS .medium)
      (List.replicate 2 true ++ List.replicate 10 false)
      initialVadState).phase = .SILENCE) :=
  ⟨Or.inr (Or.inl rfl),
   vad_hysteresis (VAD_THRESHOLDS .medium) (Or.inr (Or.inl rfl))⟩

/-- C8: a single non-speech frame arriving while the classifier is in
SILENCE resets the consecutive-speech streak to 0 (and leaves the phase at
SILENCE), so reaching SPEAKING afterwards requires the full
`speechBuffers` consecutive potential-speech frames from scratch. -/
theorem vad_noise_immunity (t : VadConfig) (s : VadState)
    (hp : s.phase = .SILENCE) (hb : 1 ≤ t.speechBuffers) :
    (vadStep t false s).speech = 0 ∧
    (vadStep t false s).phase = .SILENCE ∧
    (∀ j, j < t.speechBuffers →
      (vadRun t (List.replicate j true) (vadStep t false s)).phase =
        .SILENCE) ∧
    (vadRun t (List.replicate t.speechBuffers true)
      (vadStep t false s)).phase = .SPEAKING := by
  have hstep : vadStep t false s = ⟨.SILENCE, 0, s.silence + 1⟩ := by
    simp [vadStep, hp]
  refine ⟨by rw [hstep], by rw [hstep], ?_, ?_⟩
  · intro j hj
    rw [hstep]
    cases j with
    | zero => simp [vadRun]
    | succ j =>
      rw [vadRun_true_eq t (j + 1) _ (by omega)]
      show (if t.speechBuffers ≤
          (VadState.mk .SILENCE 0 (s.silence + 1)).speech + (j + 1) then
          VadPhase.SPEAKING else
          (VadState.mk .SILENCE 0 (s.silence + 1)).phase) = .SILENCE
      rw [if_neg (by simp; omega)]
  · rw [hstep, vadRun_true_eq t t.speechBuffers _ hb]
    show (if t.speechBuffers ≤
        (VadState.mk .SILENCE 0 (s.silence + 1)).speech + t.speechBuffers then
        VadPhase.SPEAKING else
        (VadState.mk .SILENCE 0 (s.silence + 1)).phase) = .SPEAKING
    rw [if_pos (by simp)]

/-- Witness for the C8 theorem: medium tier, SILENCE with a speech streak
of 1 already accumulated. -/
theorem vad_noise_immunity_witness :
    (VadState.mk .SILENCE 1 3).phase = .SILENCE ∧
    1 ≤ (VAD_THRESHOLDS .medium).speechBuffers ∧
    ((vadStep (VAD_THRESHOLDS .medium) false ⟨.SILENCE, 1, 3⟩).speech = 0 ∧
     (vadStep (VAD_THRESHOLDS .medium) false ⟨.SILENCE, 1, 3⟩).phase =
       .SILENCE ∧
     (∀ j, j < (VAD_THRESHOLDS .medium).speechBuffers →
       (vadRun (VAD_THRESHOLDS .medium) (List.replicate j true)
         (vadStep (VAD_THRESHOLDS .medium) false ⟨.SILENCE, 1, 3⟩)).phase =
         .SILENCE) ∧
     (vadRun (VAD_THRESHOLDS .medium)
       (List.replicate (VAD_THRESHOLDS .medium).speechBuffers true)
       (vadStep (VAD_THRESHOLDS .medium) false ⟨.SILENCE, 1, 3⟩)).phase =
       .SPEAKING) :=
  ⟨rfl, by decide,
   vad_noise_immunity (VAD_THRESHOLDS .medium) ⟨.SILENCE, 1, 3⟩ rfl
     (by decide)⟩

/-- C4: any interleaving of input/output deltas followed by one
turn-complete signal appends to the transcript exactly one optional user
entry (the trimmed concatenation of the input deltas, omitted when empty)
followed by one optional model entry (likewise for the output deltas), so
at most one entry per speaker, and both accumulators are empty immediately
after the flush. -/
theorem turn_flush_atomic (ds : List TDelta) (st : ChatState)
    (hin : st.inAcc = "") (hout : st.outAcc = "") :
    (onmessageTranscription turnCompleteMsg
      (processMsgs (ds.map deltaMsg) st)).inAcc = "" ∧
    (onmessageTranscription turnCompleteMsg
      (processMsgs (ds.map deltaMsg) st)).outAcc = "" ∧
    (onmessageTranscription turnCompleteMsg
      (processMsgs (ds.map deltaMsg) st)).transcript =
      st.transcript ++
        (if (inputConcat ds).trim ≠ "" then
          [⟨.user, (inputConcat ds).trim⟩] else []) ++
        (if (outputConcat ds).trim ≠ "" then
          [⟨.model, (outputConcat ds).trim⟩] else []) ∧
    ((onmessageTranscription turnCompleteMsg
      (processMsgs (ds.map deltaMsg) st)).transcript.drop
        st.transcript.length).countP (fun u => u.speaker == .user) ≤ 1 ∧
    ((onmessageTranscription turnCompleteMsg
      (processMsgs (ds.map deltaMsg) st)).transcript.drop
        st.transcript.length).countP (fun u => u.speaker == .model) ≤ 1 := by
  obtain ⟨h1, h2, h3⟩ := processMsgs_deltas ds st
  have hA : onmessageTranscription turnCompleteMsg
      (processMsgs (ds.map deltaMsg) st) =
      { inAcc := ""
        outAcc := ""
        transcript := st.transcript ++
          (if (inputConcat ds).trim ≠ "" then
            [⟨.user, (inputConcat ds).trim⟩] else []) ++
          (if (outputConcat ds).trim ≠ "" then
            [⟨.model, (outputConcat ds).trim⟩] else [])
        currentTurn := [] } := by
    rw [onmessage_turnComplete, h1, h2, h3, hin, hout,
      String.empty_append, String.empty_append]
  rw [hA]
  refine ⟨rfl, rfl, rfl, ?_, ?_⟩ <;>
    · show ((st.transcript ++ _ ++ _).drop st.transcript.length).countP _ ≤ 1
      rw [List.append_assoc, List.drop_left, List.countP_append]
      split_ifs <;> simp

/-- Witness for the C4 theorem: three interleaved deltas flushed by one
turn-complete signal, starting from empty accumulators. -/
theorem turn_flush_atomic_witness :
    emptyChat.inAcc = "" ∧ emptyChat.outAcc = "" ∧
    ((onmessageTranscription turnCompleteMsg
      (processMsgs ([.input (" Hi"), .output ("Hey"),
        .input (" there ")].map deltaMsg) emptyChat)).inAcc = "" ∧
    (onmessageTranscription turnCompleteMsg
      (processMsgs ([.input (" Hi"), .output ("Hey"),
        .input (" there ")].map deltaMsg) emptyChat)).outAcc = "" ∧
    (onmessageTranscription turnCompleteMsg
      (processMsgs ([.input (" Hi"), .output ("Hey"),
        .input (" there ")].map deltaMsg) emptyChat)).transcript =
      emptyChat.transcript ++
        (if (inputConcat [.input (" Hi"), .output ("Hey"),
            .input (" there ")]).trim ≠ "" then
          [⟨.user, (inputConcat [.input (" Hi"), .output ("Hey"),
            .input (" there ")]).trim⟩] else []) ++
        (if (outputConcat [.input (" Hi"), .output ("Hey"),
            .input (" there ")]).trim ≠ "" then
          [⟨.model, (outputConcat [.input (" Hi"), .output ("Hey"),
            .input (" there ")]).trim⟩] else []) ∧
    ((onmessageTranscription turnCompleteMsg
      (processMsgs ([.input (" Hi"), .output ("Hey"),
        .input (" there ")].map deltaMsg) emptyChat)).transcript.drop
        emptyChat.transcript.length).countP
          (fun u => u.speaker == .user) ≤ 1 ∧
    ((onmessageTranscription turnCompleteMsg
      (processMsgs ([.input (" Hi"), .output ("Hey"),
        .input (" there ")].map deltaMsg) emptyChat)).transcript.drop
        emptyChat.transcript.length).countP
          (fun u => u.speaker == .model) ≤ 1) :=
  ⟨rfl, rfl,
   turn_flush_atomic [.input (" Hi"), .output ("Hey"), .input (" there ")]
     emptyChat rfl rfl⟩

/-- C5: `stop()` twice in a row (from any state, including when no session
was ever started) is total, produces the identical state as a single call
and lands in IDLE; stopping a fully active session twice stops every
device track and disconnects every audio-graph node exactly once each —
no double-free, no dangling handle. -/
theorem stopConversation_idempotent :
    (∀ s : SessionState,
      stopConversation (stopConversation s) = stopConversation s ∧
      (stopConversation s).connectionState = .idle) ∧
    (∀ (s : SessionState) (ts : List Nat),
      s.log = [] → s.streamTracks = some ts → s.sessionOpen = true →
      s.inputGainNode = true → s.scriptProcessor = true →
      s.mediaStreamSource = true → s.analyserNode = true →
      s.inputAudioContext = true → s.outputAudioContext = true →
      s.animationFrameId = true →
      (stopConversation (stopConversation s)).log =
        ts.map .trackStop ++
        [.sessionClose, .cancelAnimation,
         .nodeDisconnect .inputGainNode, .nodeDisconnect .scriptProcessor,
         .nodeDisconnect .mediaStreamSource, .nodeDisconnect .analyserNode,
         .ctxClose .inputAudioContext, .ctxClose .outputAudioContext] ∧
      (ts.Nodup → ∀ i ∈ ts,
        ((stopConversation (stopConversation s)).log.count (.trackStop i)) =
          1) ∧
      (∀ n : NodeName,
        ((stopConversation (stopConversation s)).log.count
          (.nodeDisconnect n)) ≤ 1 ∧
        ((stopConversation (stopConversation s)).log.count
          (.ctxClose n)) ≤ 1)) := by
  constructor
  · intro s
    exact ⟨stopConversation_stopConversation s, stopConversation_connState s⟩
  · intro s ts hlog htr hso hg hsp hms han hic hoc haf
    have hL := stopConversation_active_log s ts hlog htr hso hg hsp hms han
      hic hoc haf
    refine ⟨hL, ?_, ?_⟩
    · intro hnd i hi
      rw [hL, List.count_append, count_trackStop_map]
      have h0 : (List.count (TeardownAction.trackStop i)
          [.sessionClose, .cancelAnimation,
           .nodeDisconnect .inputGainNode, .nodeDisconnect .scriptProcessor,
           .nodeDisconnect .mediaStreamSource, .nodeDisconnect .analyserNode,
           .ctxClose .inputAudioContext, .ctxClose .outputAudioContext]) =
          0 := by
        rw [List.count_eq_zero]
        simp
      rw [h0, List.count_eq_one_of_mem hnd hi]
    · intro n
      constructor
      · rw [hL, List.count_append,
          count_map_trackStop_eq_zero _ (by intro i hcon; simp at hcon) ts]
        cases n <;> decide
      · rw [hL, List.count_append,
          count_map_trackStop_eq_zero _ (by intro i hcon; simp at hcon) ts]
        cases n <;> decide

/-- Witness for the C5 theorem: the never-started state and the fully
active session state. -/
theorem stopConversation_idempotent_witness :
    (stopConversation (stopConversation idleSessionState) =
        stopConversation idleSessionState ∧
      (stopConversation idleSessionState).connectionState = .idle) ∧
    (stopConversation (stopConversation activeSessionState)).log =
      [0].map TeardownAction.trackStop ++
      [.sessionClose, .cancelAnimation,
       .nodeDisconnect .inputGainNode, .nodeDisconnect .scriptProcessor,
       .nodeDisconnect .mediaStreamSource, .nodeDisconnect .analyserNode,
       .ctxClose .inputAudioContext, .ctxClose .outputAudioContext] :=
  ⟨stopConversation_idempotent.1 idleSessionState,
   (stopConversation_idempotent.2 activeSessionState [0] rfl rfl rfl rfl rfl
     rfl rfl rfl rfl rfl).1⟩

end ZanstiSardam
